import Mathlib

/-!
# Verification of the options-data batch downloader

A shallow embedding of `src/options_data_download.py` (class
`MarketDataDownloader`) and proofs about it.

The Python program expands a half-open date range into per-(date, instrument)
tasks, skips weekends inside the worker, fetches one day's rows from a remote
source, partitions them by symbol into futures / spot / options groups,
creates a per-leg directory tree and writes one CSV per non-empty group,
collecting per-task failure tuples into a final error list.

Modelling decisions:
* `datetime.date` is modelled as a serial day count (proleptic Gregorian,
  day 0 = 0000-03-01), with `civilToDays` / `daysToCivil` the standard civil
  calendar conversions; `date + timedelta(days=1)` is `d + 1`, `date < date`
  is `<` on serials, and `date.weekday()` (Monday = 0) is `(d + 2) % 7`.
* A pandas `DataFrame` is a `Frame`: an explicit column list plus rows of
  string cells aligned with the columns.  Column selection `df[cs]` and the
  boolean-mask filters `df[df['symbol'] == v]` are `selectCols` / `maskPred`;
  a missing column is a `KeyError`, modelled as `none`.
* The filesystem is a list of paths (each a list of segments);
  `Path.mkdir(parents=True, exist_ok=True)` inserts every prefix of the path
  that is absent and never errors.
* Effects of one task are threaded through an explicit state `St`
  (directories created, files written); the thread pool of `download_data`
  is modelled as a sequential fold over the task list (one admissible
  schedule; the error list then appears in submission order, one of the
  completion orders the code can produce).
-/

set_option autoImplicit false

namespace OptionsDownload

/-! ## Calendar dates (`datetime.date`) -/

/-- Serial day number of the civil date `(y, m, d)`: days since 0000-03-01
(proleptic Gregorian).  Valid for `y ≥ 1`, the range `datetime.date`
supports. -/
def civilToDays (y m d : Nat) : Nat :=
  let y1 := if m ≤ 2 then y - 1 else y
  let era := y1 / 400
  let yoe := y1 % 400
  let mp := (m + 9) % 12
  let doy := (153 * mp + 2) / 5 + (d - 1)
  let doe := yoe * 365 + yoe / 4 - yoe / 100 + doy
  era * 146097 + doe

/-- Inverse of `civilToDays`: the civil `(year, month, day)` of a serial
day number. -/
def daysToCivil (z : Nat) : Nat × Nat × Nat :=
  let era := z / 146097
  let doe := z % 146097
  let yoe := (doe - doe / 1460 + doe / 36524 - doe / 146096) / 365
  let y := yoe + era * 400
  let doy := doe - (365 * yoe + yoe / 4 - yoe / 100)
  let mp := (5 * doy + 2) / 153
  let d := doy - (153 * mp + 2) / 5 + 1
  let m := if mp < 10 then mp + 3 else mp - 9
  (if m ≤ 2 then y + 1 else y, m, d)

/-- A `datetime.date`, as its serial day number. -/
abbrev Date := Nat

/-- Build a date from year/month/day, as `dt.date(y, m, d)`. -/
def mkDate (y m d : Nat) : Date := civilToDays y m d

/-- `date.year`. -/
def yearOf (z : Date) : Nat := (daysToCivil z).1

/-- `date.month`. -/
def monthOf (z : Date) : Nat := (daysToCivil z).2.1

/-- `date.day`. -/
def dayOf (z : Date) : Nat := (daysToCivil z).2.2

/-- `date.weekday()`: Monday = 0, ..., Saturday = 5, Sunday = 6. -/
def weekday (z : Date) : Nat := (z + 2) % 7

-- Sanity checks against known calendar facts.
example : weekday (mkDate 2024 1 1) = 0 := by decide   -- Monday
example : weekday (mkDate 2024 1 6) = 5 := by decide   -- Saturday
example : weekday (mkDate 2024 1 7) = 6 := by decide   -- Sunday
example : weekday (mkDate 1970 1 1) = 3 := by decide   -- Thursday
example : daysToCivil (mkDate 2024 2 29) = (2024, 2, 29) := by decide
example : mkDate 2024 2 29 + 1 = mkDate 2024 3 1 := by decide
example : mkDate 2023 12 31 + 1 = mkDate 2024 1 1 := by decide
example : daysToCivil (mkDate 2020 1 1) = (2020, 1, 1) := by decide

/-- Zero-pad a number to two digits, as `strftime` does for `%d` / `%m`. -/
def pad2 (n : Nat) : String :=
  if n < 10 then "0" ++ toString n else toString n

/-- Zero-pad a number to four digits, as `strftime` does for `%Y`. -/
def pad4 (n : Nat) : String :=
  if n < 10 then "000" ++ toString n
  else if n < 100 then "00" ++ toString n
  else if n < 1000 then "0" ++ toString n
  else toString n

/-- `date.strftime('%d_%m_%Y')`. -/
def strftimeDMY (z : Date) : String :=
  pad2 (dayOf z) ++ "_" ++ pad2 (monthOf z) ++ "_" ++ pad4 (yearOf z)

example : strftimeDMY (mkDate 2024 1 6) = "06_01_2024" := by decide

/-- Python `str.lower()`, per character (the instrument names are ASCII;
`.lower()` lowercases each character independently). -/
def lowerStr (s : String) : String := String.mk (s.data.map Char.toLower)

example : lowerStr "NIFTY" = "nifty" := by decide
example : lowerStr "BANKNIFTY" = "banknifty" := by decide

/-! ## DataFrames -/

/-- A pandas `DataFrame`: a column list and rows of string cells, each row
aligned positionally with the columns. -/
structure Frame where
  cols : List String
  rows : List (List String)
deriving DecidableEq, Repr

/-- `base_columns` of `process_data` (line 57). -/
def base_columns : List String :=
  ["date", "time", "symbol", "open", "high", "low", "close", "oi", "volume"]

/-- The spot projection columns of `process_data` (line 66). -/
def spot_columns : List String :=
  ["date", "time", "symbol", "open", "high", "low", "close"]

/-- Column selection `df[cs]`: reorders/projects each row to the named
columns; a name absent from `df.cols` is a pandas `KeyError` (`none`). -/
def selectCols (f : Frame) (cs : List String) : Option Frame :=
  match cs.mapM (fun c => f.cols.findIdx? (fun c0 => c0 == c)) with
  | none => none
  | some is => some ⟨cs, f.rows.map (fun r => is.map (fun i => r.getD i ""))⟩

/-- Boolean-mask filtering `df[p(df[c])]`: keeps the rows whose cell in
column `c` satisfies `p`; a missing column is a `KeyError` (`none`). -/
def maskPred (f : Frame) (c : String) (p : String → Bool) : Option Frame :=
  match f.cols.findIdx? (fun c0 => c0 == c) with
  | none => none
  | some i => some ⟨f.cols, f.rows.filter (fun r => p (r.getD i ""))⟩

/-- `df.empty`: no rows (all our frames have a non-empty column list). -/
def Frame.isEmptyF (f : Frame) : Bool := f.rows.isEmpty

/-- The classified groups returned by `process_data`. -/
structure Groups where
  futures : Frame
  spot : Frame
  options : Frame
deriving DecidableEq, Repr

/-- `process_data(data, instrument)` (lines 55-68): restrict to the nine
base columns, then partition by exact symbol equality — futures where
`symbol == instrument + "-I"`, spot where `symbol == instrument` (projected
to seven columns), options everything else.  `none` models the `KeyError`
exception a missing column raises. -/
def process_data (data : Frame) (instrument : String) : Option Groups := do
  let d ← selectCols data base_columns
  let spot_symbol := instrument
  let futures_symbol := instrument ++ "-I"
  let futures ← maskPred d "symbol" (fun s => s == futures_symbol)
  let spotAll ← maskPred d "symbol" (fun s => s == spot_symbol)
  let spot ← selectCols spotAll spot_columns
  let options ← maskPred d "symbol"
      (fun s => !(s == spot_symbol) && !(s == futures_symbol))
  pure ⟨futures, spot, options⟩

/-! ## Paths and the filesystem -/

/-- A `pathlib.Path`, as its list of segments. -/
abbrev FsPath := List String

/-- The set of directories that exist, as a list of paths. -/
abbrev Fs := List FsPath

/-- Append a path to the list if absent (directory creation is a no-op on
an existing path, `exist_ok=True`). -/
def insertAbsent (fs : Fs) (p : FsPath) : Fs :=
  if p ∈ fs then fs else fs ++ [p]

/-- The non-empty prefixes of a path, shortest first. -/
def pathPrefixes (p : FsPath) : List FsPath :=
  (List.range p.length).map (fun i => p.take (i + 1))

/-- `path.mkdir(parents=True, exist_ok=True)`: create every missing
ancestor and the path itself; never errors. -/
def mkdirP (fs : Fs) (p : FsPath) : Fs :=
  (pathPrefixes p).foldl insertAbsent fs

/-- The three destination directories for a (date, instrument). -/
structure Dirs where
  fut : FsPath
  spot : FsPath
  options : FsPath
deriving DecidableEq, Repr

/-- The pure path computation of `create_directory_structure` (lines
44-48): `base / (instrument.lower() + "_" + leg) / str(year) / str(month)`
for the three legs. -/
def plannedDirs (base : FsPath) (date : Date) (instrument : String) : Dirs :=
  { fut := base ++ [lowerStr instrument ++ "_fut",
                    toString (yearOf date), toString (monthOf date)],
    spot := base ++ [lowerStr instrument ++ "_spot",
                     toString (yearOf date), toString (monthOf date)],
    options := base ++ [lowerStr instrument ++ "_options",
                        toString (yearOf date), toString (monthOf date)] }

/-- `create_directory_structure(date, instrument)` (lines 42-53): compute
the three leg directories and `mkdir -p` each of them (iteration order of
`directories.values()` is fut, spot, options). -/
def create_directory_structure (fs : Fs) (base : FsPath) (date : Date)
    (instrument : String) : Fs × Dirs :=
  let directories := plannedDirs base date instrument
  (mkdirP (mkdirP (mkdirP fs directories.fut) directories.spot)
     directories.options,
   directories)

/-! ## Persistence -/

/-- `save_data(data_dict, directories, date, instrument)` (lines 70-80),
as the list of (full file path, frame) writes it performs: one CSV per
non-empty group, named `{instrument.lower()}_{leg}_{dd_mm_yyyy}.csv` in
that leg's directory; empty groups are skipped. -/
def save_data (data_dict : Groups) (directories : Dirs) (date : Date)
    (instrument : String) : List (FsPath × Frame) :=
  let date_str := strftimeDMY date
  (if data_dict.futures.isEmptyF then []
   else [(directories.fut ++
            [lowerStr instrument ++ "_fut_" ++ date_str ++ ".csv"],
          data_dict.futures)]) ++
  (if data_dict.spot.isEmptyF then []
   else [(directories.spot ++
            [lowerStr instrument ++ "_spot_" ++ date_str ++ ".csv"],
          data_dict.spot)]) ++
  (if data_dict.options.isEmptyF then []
   else [(directories.options ++
            [lowerStr instrument ++ "_options_" ++ date_str ++ ".csv"],
          data_dict.options)])

/-! ## The worker and the scheduler -/

/-- One pipeline stage performed by a worker, in the order it happens.
`fetchData` records the instrument code the remote call receives. -/
inductive Event where
  | resolveDirs
  | fetchData (code : String) (date : Date)
  | classifyRows
  | persistWrite
deriving DecidableEq, Repr

/-- The worker-visible mutable world: directories created and files
written. -/
structure St where
  fs : Fs
  files : List (FsPath × Frame)
deriving DecidableEq, Repr

/-- The remote collaborator `self.ma.get_data`: succeeds with a raw frame
or raises (the exception's message string). -/
abbrev Fetch := String → Date → Except String Frame

/-- `download_single_date_instrument(date, instrument)` (lines 82-100):
skip weekends (weekday 5 or 6) with no effect; otherwise create the
directory tree, fetch with the lowercased instrument, classify, persist.
Any exception in the body is caught and returned as the failure tuple
`(date, instrument, str(e))`; a classification `KeyError`'s `str(e)` is
modelled as the constant `"KeyError"`.  Returns the updated world, the
trace of stages performed, and `none` on success. -/
def download_single_date_instrument (fetch : Fetch) (st : St) (base : FsPath)
    (date : Date) (instrument : String) :
    St × List Event × Option (Date × String × String) :=
  if weekday date ∈ [5, 6] then
    (st, [], none)
  else
    let resolved := create_directory_structure st.fs base date instrument
    let st1 : St := { st with fs := resolved.1 }
    match fetch (lowerStr instrument) date with
    | .error e =>
        (st1, [.resolveDirs, .fetchData (lowerStr instrument) date],
         some (date, instrument, e))
    | .ok raw_data =>
        match process_data raw_data instrument with
        | none =>
            (st1,
             [.resolveDirs, .fetchData (lowerStr instrument) date, .classifyRows],
             some (date, instrument, "KeyError"))
        | some processed_data =>
            ({ st1 with files :=
                st1.files ++ save_data processed_data resolved.2 date instrument },
             [.resolveDirs, .fetchData (lowerStr instrument) date, .classifyRows,
              .persistWrite],
             none)

/-- The failure tuple a task yields, without the state: the worker's result
depends only on the date, the instrument and the remote response. -/
def taskResult (fetch : Fetch) (date : Date) (instrument : String) :
    Option (Date × String × String) :=
  if weekday date ∈ [5, 6] then none
  else
    match fetch (lowerStr instrument) date with
    | .error e => some (date, instrument, e)
    | .ok raw_data =>
        match process_data raw_data instrument with
        | none => some (date, instrument, "KeyError")
        | some _ => none

/-- The body of the `while current_date < end_date` loop of
`download_data` (lines 104-108), structurally recursive on a fuel bound of
the remaining iterations; the guard is still tested on every step, exactly
as the loop does. -/
def enumDatesFuel : Nat → Date → Date → List Date
  | 0, _, _ => []
  | n + 1, current_date, end_date =>
      if current_date < end_date then
        current_date :: enumDatesFuel n (current_date + 1) end_date
      else []

/-- The `while current_date < end_date` loop of `download_data`
(lines 104-108): the half-open list of dates.  `end_date - start_date`
iterations always exhaust the guard. -/
def enumDates (start_date end_date : Date) : List Date :=
  enumDatesFuel (end_date - start_date) start_date end_date

example : enumDates (mkDate 2024 1 1) (mkDate 2024 1 4)
    = [mkDate 2024 1 1, mkDate 2024 1 2, mkDate 2024 1 3] := by decide
example : enumDates (mkDate 2024 1 4) (mkDate 2024 1 4) = [] := by decide

/-- The task list of `download_data` (line 110): the cartesian product of
the enumerated dates with the instruments, dates outermost. -/
def tasksOf (start_date end_date : Date) (instruments : List String) :
    List (Date × String) :=
  (enumDates start_date end_date).flatMap
    (fun date => instruments.map (fun instrument => (date, instrument)))

/-- `download_data(start_date, end_date, instruments)` (lines 102-127):
run every task, collecting each non-`None` worker result into the error
list, and return it.  The thread pool is modelled as a sequential fold —
one admissible schedule; `as_completed` makes the error order
nondeterministic in the code, and the fold realizes submission order. -/
def download_data (fetch : Fetch) (st : St) (base : FsPath)
    (start_date end_date : Date) (instruments : List String) :
    St × List (Date × String × String) :=
  (tasksOf start_date end_date instruments).foldl
    (fun acc t =>
      let r := download_single_date_instrument fetch acc.1 base t.1 t.2
      (r.1, acc.2 ++ r.2.2.toList))
    (st, [])

/-! ## Concrete fixtures

A small raw frame like the one of spec §8 scenario 7, and trivial states
and fetch oracles, used to instantiate the theorems on closed inputs. -/

/-- A one-day raw frame with one spot, one futures and one options row. -/
def sampleRaw : Frame :=
  ⟨base_columns,
   [["2024-01-01", "09:15", "NIFTY", "1", "2", "3", "4", "0", "0"],
    ["2024-01-01", "09:15", "NIFTY-I", "1", "2", "3", "4", "10", "20"],
    ["2024-01-01", "09:15", "NIFTY24JANCE", "1", "2", "3", "4", "10", "30"]]⟩

/-- The groups `process_data` yields on `sampleRaw` for `"NIFTY"`. -/
def sampleGroups : Groups :=
  ⟨⟨base_columns,
    [["2024-01-01", "09:15", "NIFTY-I", "1", "2", "3", "4", "10", "20"]]⟩,
   ⟨spot_columns, [["2024-01-01", "09:15", "NIFTY", "1", "2", "3", "4"]]⟩,
   ⟨base_columns,
    [["2024-01-01", "09:15", "NIFTY24JANCE", "1", "2", "3", "4", "10", "30"]]⟩⟩

example : process_data sampleRaw "NIFTY" = some sampleGroups := by decide

/-- A remote source that always raises. -/
def fetchBoom : Fetch := fun _ _ => Except.error "boom"

/-- A remote source that always returns `sampleRaw`. -/
def fetchSample : Fetch := fun _ _ => Except.ok sampleRaw

/-- An empty initial world. -/
def st0 : St := ⟨[], []⟩

/-- The downloader's base path `cwd / 'market_data'`. -/
def base0 : FsPath := ["market_data"]

/-! ## Frame lemmas -/

theorem selectCols_some {f : Frame} {cs : List String} {d : Frame}
    (h : selectCols f cs = some d) :
    d.cols = cs ∧ d.rows.length = f.rows.length := by
  unfold selectCols at h
  cases hm : cs.mapM (fun c => f.cols.findIdx? (fun c0 => c0 == c)) with
  | none => rw [hm] at h; cases h
  | some is =>
      rw [hm] at h
      simp only [Option.some.injEq] at h
      subst h
      exact ⟨rfl, by simp⟩

/-- Unfolding `process_data` once the base-column restriction succeeded:
the three groups are the three symbol filters of the restricted rows (the
symbol cell is at index 2 of `base_columns`), the spot one projected to
the first seven cells. -/
theorem process_data_spec (data : Frame) (rows : List (List String))
    (instrument : String)
    (h : selectCols data base_columns = some ⟨base_columns, rows⟩) :
    process_data data instrument = some
      ⟨⟨base_columns,
        rows.filter (fun r => r.getD 2 "" == instrument ++ "-I")⟩,
       ⟨spot_columns,
        (rows.filter (fun r => r.getD 2 "" == instrument)).map
          (fun r => [0, 1, 2, 3, 4, 5, 6].map (fun i => r.getD i ""))⟩,
       ⟨base_columns,
        rows.filter (fun r =>
          !(r.getD 2 "" == instrument) && !(r.getD 2 "" == instrument ++ "-I"))⟩⟩ := by
  unfold process_data
  rw [h]
  rfl

/-- Two exclusive predicates and their joint complement split a list's
length three ways. -/
theorem three_filter_length (l : List (List String)) (p q : List String → Bool)
    (hpq : ∀ r, p r = true → q r = true → False) :
    (l.filter p).length + (l.filter q).length
      + (l.filter (fun r => !(q r) && !(p r))).length = l.length := by
  induction l with
  | nil => simp
  | cons a l ih =>
      cases hpa : p a <;> cases hqa : q a
      · simp [List.filter_cons, hpa, hqa]; omega
      · simp [List.filter_cons, hpa, hqa]; omega
      · simp [List.filter_cons, hpa, hqa]; omega
      · exact (hpq a hpa hqa).elim

/-- A symbol cannot match both the futures alias and the spot name: the
alias is two characters longer. -/
theorem spot_fut_exclusive (instrument : String) (r : List String)
    (h1 : (r.getD 2 "" == instrument ++ "-I") = true)
    (h2 : (r.getD 2 "" == instrument) = true) : False := by
  have e1 : r.getD 2 "" = instrument ++ "-I" := by
    exact eq_of_beq h1
  have e2 : r.getD 2 "" = instrument := by
    exact eq_of_beq h2
  have e3 : instrument ++ "-I" = instrument := e1 ▸ e2
  have e4 : (instrument ++ "-I").length = instrument.length := by rw [e3]
  rw [String.length_append] at e4
  have : ("-I" : String).length = 2 := by decide
  omega

/-! ## Filesystem lemmas -/

theorem mem_insertAbsent {fs : Fs} {a : FsPath} (p : FsPath) (h : a ∈ fs) :
    a ∈ insertAbsent fs p := by
  unfold insertAbsent
  by_cases hp : p ∈ fs
  · simp [hp, h]
  · simp [hp, h]

theorem self_mem_insertAbsent (fs : Fs) (p : FsPath) : p ∈ insertAbsent fs p := by
  unfold insertAbsent
  by_cases hp : p ∈ fs
  · simp [hp]
  · simp [hp]

theorem mem_foldl_insertAbsent {a : FsPath} :
    ∀ (l : List FsPath) (fs : Fs), a ∈ fs → a ∈ l.foldl insertAbsent fs := by
  intro l
  induction l with
  | nil => intro fs h; simpa using h
  | cons q l ih => intro fs h; exact ih _ (mem_insertAbsent q h)

theorem mem_list_foldl_insertAbsent {a : FsPath} :
    ∀ (l : List FsPath) (fs : Fs), a ∈ l → a ∈ l.foldl insertAbsent fs := by
  intro l
  induction l with
  | nil => intro fs h; cases h
  | cons q l ih =>
      intro fs h
      rcases List.mem_cons.mp h with h1 | h2
      · subst h1; exact mem_foldl_insertAbsent l _ (self_mem_insertAbsent fs a)
      · exact ih _ h2

theorem foldl_insertAbsent_noop :
    ∀ (l : List FsPath) (fs : Fs), (∀ q ∈ l, q ∈ fs) → l.foldl insertAbsent fs = fs := by
  intro l
  induction l with
  | nil => intro fs _; rfl
  | cons q l ih =>
      intro fs h
      have hq : q ∈ fs := h q (List.mem_cons_self q l)
      have : insertAbsent fs q = fs := by unfold insertAbsent; simp [hq]
      rw [List.foldl_cons, this]
      exact ih fs (fun x hx => h x (List.mem_cons_of_mem q hx))

theorem mem_mkdirP_of_mem {fs : Fs} {a : FsPath} (p : FsPath) (h : a ∈ fs) :
    a ∈ mkdirP fs p :=
  mem_foldl_insertAbsent _ _ h

theorem mem_mkdirP_of_ancestor {fs : Fs} {q p : FsPath} (h : q ∈ pathPrefixes p) :
    q ∈ mkdirP fs p :=
  mem_list_foldl_insertAbsent _ _ h

theorem self_mem_pathPrefixes {p : FsPath} (h : p ≠ []) : p ∈ pathPrefixes p := by
  unfold pathPrefixes
  have hlen : 0 < p.length := List.length_pos.mpr h
  refine List.mem_map.mpr ⟨p.length - 1, ?_, ?_⟩
  · exact List.mem_range.mpr (by omega)
  · rw [Nat.sub_add_cancel hlen]
    exact List.take_length p

theorem mem_mkdirP_self (fs : Fs) {p : FsPath} (h : p ≠ []) : p ∈ mkdirP fs p :=
  mem_mkdirP_of_ancestor (self_mem_pathPrefixes h)

theorem mkdirP_noop {fs : Fs} {p : FsPath}
    (h : ∀ q ∈ pathPrefixes p, q ∈ fs) : mkdirP fs p = fs :=
  foldl_insertAbsent_noop _ _ h

/-- Creating the same three directory trees a second time is a no-op. -/
theorem mkdir3_idem (fs : Fs) (a b c : FsPath) :
    mkdirP (mkdirP (mkdirP (mkdirP (mkdirP (mkdirP fs a) b) c) a) b) c
      = mkdirP (mkdirP (mkdirP fs a) b) c := by
  have h1 : ∀ q ∈ pathPrefixes a, q ∈ mkdirP (mkdirP (mkdirP fs a) b) c :=
    fun q hq => mem_mkdirP_of_mem _ (mem_mkdirP_of_mem _ (mem_mkdirP_of_ancestor hq))
  rw [mkdirP_noop h1]
  have h2 : ∀ q ∈ pathPrefixes b, q ∈ mkdirP (mkdirP (mkdirP fs a) b) c :=
    fun q hq => mem_mkdirP_of_mem _ (mem_mkdirP_of_ancestor hq)
  rw [mkdirP_noop h2]
  have h3 : ∀ q ∈ pathPrefixes c, q ∈ mkdirP (mkdirP (mkdirP fs a) b) c :=
    fun q hq => mem_mkdirP_of_ancestor hq
  rw [mkdirP_noop h3]

/-! ## Date-enumeration lemmas -/

theorem mem_enumDatesFuel :
    ∀ (n s e d : Nat), e - s ≤ n →
      (d ∈ enumDatesFuel n s e ↔ s ≤ d ∧ d < e) := by
  intro n
  induction n with
  | zero =>
      intro s e d h
      unfold enumDatesFuel
      simp only [List.not_mem_nil, false_iff]
      omega
  | succ n ih =>
      intro s e d h
      unfold enumDatesFuel
      by_cases hs : s < e
      · rw [if_pos hs]
        rw [List.mem_cons, ih (s + 1) e d (by omega)]
        omega
      · rw [if_neg hs]
        simp only [List.not_mem_nil, false_iff]
        omega

theorem mem_enumDates (s e d : Nat) : d ∈ enumDates s e ↔ s ≤ d ∧ d < e :=
  mem_enumDatesFuel (e - s) s e d (Nat.le_refl _)

theorem enumDates_nil {s e : Nat} (h : e ≤ s) : enumDates s e = [] := by
  unfold enumDates
  have : e - s = 0 := by omega
  rw [this]
  rfl

/-! ## Worker and scheduler lemmas -/

/-- The failure component of a worker run does not depend on the incoming
world state. -/
theorem download_single_snd (fetch : Fetch) (st : St) (base : FsPath)
    (date : Date) (instrument : String) :
    (download_single_date_instrument fetch st base date instrument).2.2
      = taskResult fetch date instrument := by
  unfold download_single_date_instrument taskResult
  by_cases h : weekday date ∈ [5, 6]
  · rw [if_pos h, if_pos h]
  · rw [if_neg h, if_neg h]
    cases hf : fetch (lowerStr instrument) date with
    | error e => simp [hf]
    | ok raw_data =>
        cases hp : process_data raw_data instrument with
        | none => simp [hf, hp]
        | some g => simp [hf, hp]

/-- A failure tuple names its own task's date and instrument, and only
non-weekend tasks fail. -/
theorem taskResult_shape (fetch : Fetch) {date : Date} {instrument : String}
    {out : Date × String × String}
    (h : taskResult fetch date instrument = some out) :
    out.1 = date ∧ out.2.1 = instrument ∧ ¬ weekday date ∈ [5, 6] := by
  unfold taskResult at h
  by_cases hw : weekday date ∈ [5, 6]
  · rw [if_pos hw] at h; cases h
  · rw [if_neg hw] at h
    cases hf : fetch (lowerStr instrument) date with
    | error e =>
        rw [hf] at h
        simp only [Option.some.injEq] at h
        subst h
        exact ⟨rfl, rfl, hw⟩
    | ok raw_data =>
        rw [hf] at h
        dsimp only at h
        cases hp : process_data raw_data instrument with
        | none =>
            rw [hp] at h
            simp only [Option.some.injEq] at h
            subst h
            exact ⟨rfl, rfl, hw⟩
        | some g => rw [hp] at h; cases h

/-- Unrolling the scheduler's fold: the collected error list is the
pointwise per-task failures, regardless of the threaded state. -/
theorem foldl_tasks_errors (fetch : Fetch) (base : FsPath) :
    ∀ (tasks : List (Date × String)) (st : St)
      (acc : List (Date × String × String)),
      (tasks.foldl (fun acc2 t =>
          let r := download_single_date_instrument fetch acc2.1 base t.1 t.2
          (r.1, acc2.2 ++ r.2.2.toList)) (st, acc)).2
        = acc ++ tasks.filterMap (fun t => taskResult fetch t.1 t.2) := by
  intro tasks
  induction tasks with
  | nil => intro st acc; simp
  | cons t ts ih =>
      intro st acc
      rw [List.foldl_cons]
      show (ts.foldl _
        ((download_single_date_instrument fetch st base t.1 t.2).1,
         acc ++ (download_single_date_instrument fetch st base t.1 t.2).2.2.toList)).2 = _
      rw [ih, download_single_snd]
      cases hr : taskResult fetch t.1 t.2 with
      | none => simp [List.filterMap_cons, hr]
      | some e => simp [List.filterMap_cons, hr]

/-- The error list returned by `download_data` is exactly the per-task
failures of the task list. -/
theorem download_data_errors (fetch : Fetch) (st : St) (base : FsPath)
    (start_date end_date : Nat) (instruments : List String) :
    (download_data fetch st base start_date end_date instruments).2
      = (tasksOf start_date end_date instruments).filterMap
          (fun t => taskResult fetch t.1 t.2) := by
  unfold download_data
  rw [foldl_tasks_errors fetch base _ st []]
  rfl

/-- The weekend guard fires before any effect: the worker returns the
state untouched, with an empty trace and no failure. -/
theorem download_single_weekend (fetch : Fetch) (st : St) (base : FsPath)
    (date : Date) (instrument : String) (h : weekday date ∈ [5, 6]) :
    download_single_date_instrument fetch st base date instrument
      = (st, [], none) := by
  unfold download_single_date_instrument
  rw [if_pos h]

/-- A failing fetch on a non-weekend date: the directory tree has been
created, nothing was written, and the failure tuple is returned. -/
theorem download_single_fetch_error (fetch : Fetch) (st : St) (base : FsPath)
    (date : Date) (instrument : String) (e : String)
    (hw : ¬ weekday date ∈ [5, 6])
    (hf : fetch (lowerStr instrument) date = Except.error e) :
    download_single_date_instrument fetch st base date instrument
      = ({ fs := (create_directory_structure st.fs base date instrument).1,
           files := st.files },
         [Event.resolveDirs, Event.fetchData (lowerStr instrument) date],
         some (date, instrument, e)) := by
  unfold download_single_date_instrument
  rw [if_neg hw]
  simp only [hf]

/-! ## Claim theorems -/

/-- C2: classification is a total partition: once the base-column
restriction succeeds, the futures group is exactly the rows whose symbol
cell equals `instrument ++ "-I"`, the spot group exactly those equal to
`instrument` (projected), the options group all remaining rows, and the
three group sizes sum to the input size. -/
theorem classification_total_partition (data : Frame) (instrument : String)
    (g : Groups) (h : process_data data instrument = some g) :
    ∃ rows : List (List String),
      selectCols data base_columns = some ⟨base_columns, rows⟩ ∧
      rows.length = data.rows.length ∧
      g.futures.rows = rows.filter (fun r => r.getD 2 "" == instrument ++ "-I") ∧
      g.spot.rows = (rows.filter (fun r => r.getD 2 "" == instrument)).map
        (fun r => [0, 1, 2, 3, 4, 5, 6].map (fun i => r.getD i "")) ∧
      g.options.rows = rows.filter (fun r =>
        !(r.getD 2 "" == instrument) && !(r.getD 2 "" == instrument ++ "-I")) ∧
      g.futures.rows.length + g.spot.rows.length + g.options.rows.length
        = data.rows.length := by
  cases hsel : selectCols data base_columns with
  | none =>
      unfold process_data at h
      rw [hsel] at h
      simp at h
  | some d =>
      obtain ⟨hcols, hlen⟩ := selectCols_some hsel
      obtain ⟨cols, rows⟩ := d
      dsimp at hcols hlen
      subst hcols
      have hpd := process_data_spec data rows instrument hsel
      rw [hpd] at h
      simp only [Option.some.injEq] at h
      subst h
      refine ⟨rows, rfl, hlen, rfl, rfl, rfl, ?_⟩
      dsimp only
      rw [List.length_map]
      have hsum : (rows.filter (fun r => r.getD 2 "" == instrument ++ "-I")).length
          + (rows.filter (fun r => r.getD 2 "" == instrument)).length
          + (rows.filter (fun r =>
              !(r.getD 2 "" == instrument)
                && !(r.getD 2 "" == instrument ++ "-I"))).length
          = rows.length :=
        three_filter_length rows _ _
          (fun r h1 h2 => spot_fut_exclusive instrument r h1 h2)
      omega

/-- Witness for C2 on a concrete three-row frame. -/
theorem classification_total_partition_witness :
    process_data sampleRaw "NIFTY" = some sampleGroups ∧
    ∃ rows : List (List String),
      selectCols sampleRaw base_columns = some ⟨base_columns, rows⟩ ∧
      rows.length = sampleRaw.rows.length ∧
      sampleGroups.futures.rows
        = rows.filter (fun r => r.getD 2 "" == "NIFTY" ++ "-I") ∧
      sampleGroups.spot.rows = (rows.filter (fun r => r.getD 2 "" == "NIFTY")).map
        (fun r => [0, 1, 2, 3, 4, 5, 6].map (fun i => r.getD i "")) ∧
      sampleGroups.options.rows = rows.filter (fun r =>
        !(r.getD 2 "" == "NIFTY") && !(r.getD 2 "" == "NIFTY" ++ "-I")) ∧
      sampleGroups.futures.rows.length + sampleGroups.spot.rows.length
          + sampleGroups.options.rows.length = sampleRaw.rows.length :=
  ⟨by decide,
   classification_total_partition sampleRaw "NIFTY" sampleGroups (by decide)⟩

/-- C5: the spot group's columns are exactly
date, time, symbol, open, high, low, close — open interest and volume are
absent — while the futures and options groups keep the nine base
columns. -/
theorem spot_projection_columns (data : Frame) (instrument : String)
    (g : Groups) (h : process_data data instrument = some g) :
    g.spot.cols = spot_columns ∧
    ¬ "oi" ∈ g.spot.cols ∧ ¬ "volume" ∈ g.spot.cols ∧
    g.futures.cols = base_columns ∧ g.options.cols = base_columns := by
  cases hsel : selectCols data base_columns with
  | none =>
      unfold process_data at h
      rw [hsel] at h
      simp at h
  | some d =>
      obtain ⟨hcols, _⟩ := selectCols_some hsel
      obtain ⟨cols, rows⟩ := d
      dsimp at hcols
      subst hcols
      have hpd := process_data_spec data rows instrument hsel
      rw [hpd] at h
      simp only [Option.some.injEq] at h
      subst h
      refine ⟨rfl, ?_, ?_, rfl, rfl⟩
      · show ¬ "oi" ∈ spot_columns
        decide
      · show ¬ "volume" ∈ spot_columns
        decide

/-- Witness for C5 on a concrete three-row frame. -/
theorem spot_projection_columns_witness :
    process_data sampleRaw "NIFTY" = some sampleGroups ∧
    (sampleGroups.spot.cols = spot_columns ∧
     ¬ "oi" ∈ sampleGroups.spot.cols ∧ ¬ "volume" ∈ sampleGroups.spot.cols ∧
     sampleGroups.futures.cols = base_columns ∧
     sampleGroups.options.cols = base_columns) :=
  ⟨by decide, spot_projection_columns sampleRaw "NIFTY" sampleGroups (by decide)⟩

/-- C6: the persister writes a file exactly for each non-empty group,
named `{instrument.lowercase}_{leg}_{dd_mm_yyyy}.csv` with zero-padded
day/month/year, into that leg's directory; an empty group contributes no
file. -/
theorem save_data_nonempty_groups (data_dict : Groups) (directories : Dirs)
    (date : Date) (instrument : String) (p : FsPath) (f : Frame) :
    ((p, f) ∈ save_data data_dict directories date instrument ↔
      (data_dict.futures.rows ≠ [] ∧
        p = directories.fut ++
          [lowerStr instrument ++ "_fut_" ++ strftimeDMY date ++ ".csv"] ∧
        f = data_dict.futures) ∨
      (data_dict.spot.rows ≠ [] ∧
        p = directories.spot ++
          [lowerStr instrument ++ "_spot_" ++ strftimeDMY date ++ ".csv"] ∧
        f = data_dict.spot) ∨
      (data_dict.options.rows ≠ [] ∧
        p = directories.options ++
          [lowerStr instrument ++ "_options_" ++ strftimeDMY date ++ ".csv"] ∧
        f = data_dict.options)) ∧
    strftimeDMY date
      = pad2 (dayOf date) ++ "_" ++ pad2 (monthOf date) ++ "_"
          ++ pad4 (yearOf date) := by
  refine ⟨?_, rfl⟩
  unfold save_data Frame.isEmptyF
  by_cases h1 : data_dict.futures.rows = [] <;>
    by_cases h2 : data_dict.spot.rows = [] <;>
      by_cases h3 : data_dict.options.rows = [] <;>
        simp [h1, h2, h3, List.isEmpty_iff, Prod.ext_iff, and_assoc]

/-- C7: directory resolution is deterministic and idempotent — a second
call on the filesystem the first one produced changes nothing and returns
the same three paths, each of the form
`base / (instrument.lowercase ++ "_" ++ leg) / year / month`. -/
theorem directory_resolution_idempotent (fs : Fs) (base : FsPath)
    (date : Date) (instrument : String) :
    create_directory_structure
        (create_directory_structure fs base date instrument).1 base date instrument
      = ((create_directory_structure fs base date instrument).1,
         (create_directory_structure fs base date instrument).2) ∧
    (create_directory_structure fs base date instrument).2.fut
      = base ++ [lowerStr instrument ++ "_fut",
                 toString (yearOf date), toString (monthOf date)] ∧
    (create_directory_structure fs base date instrument).2.spot
      = base ++ [lowerStr instrument ++ "_spot",
                 toString (yearOf date), toString (monthOf date)] ∧
    (create_directory_structure fs base date instrument).2.options
      = base ++ [lowerStr instrument ++ "_options",
                 toString (yearOf date), toString (monthOf date)] := by
  refine ⟨?_, rfl, rfl, rfl⟩
  unfold create_directory_structure
  dsimp only
  rw [mkdir3_idem]

/-- C8: the scheduler enumerates exactly the half-open date range; task
pairs are exactly (range date, listed instrument); a range with
`end_date ≤ start_date` yields no tasks and an empty error report. -/
theorem date_range_half_open (start_date end_date : Nat)
    (instruments : List String) (fetch : Fetch) (st : St) (base : FsPath) :
    (∀ d : Nat, d ∈ enumDates start_date end_date ↔
        start_date ≤ d ∧ d < end_date) ∧
    (∀ t : Date × String, t ∈ tasksOf start_date end_date instruments ↔
        (start_date ≤ t.1 ∧ t.1 < end_date) ∧ t.2 ∈ instruments) ∧
    (end_date ≤ start_date →
      tasksOf start_date end_date instruments = [] ∧
      (download_data fetch st base start_date end_date instruments).2 = []) := by
  refine ⟨fun d => mem_enumDates _ _ _, ?_, ?_⟩
  · intro t
    unfold tasksOf
    rw [List.mem_flatMap]
    constructor
    · rintro ⟨d, hd, hmem⟩
      rw [List.mem_map] at hmem
      obtain ⟨i, hi, rfl⟩ := hmem
      rw [mem_enumDates] at hd
      exact ⟨hd, hi⟩
    · rintro ⟨⟨h1, h2⟩, h3⟩
      exact ⟨t.1, (mem_enumDates _ _ _).mpr ⟨h1, h2⟩,
        List.mem_map.mpr ⟨t.2, h3, rfl⟩⟩
  · intro hle
    have ht : tasksOf start_date end_date instruments = [] := by
      unfold tasksOf
      rw [enumDates_nil hle]
      rfl
    refine ⟨ht, ?_⟩
    rw [download_data_errors, ht]
    rfl

/-- Witness for C8: a concrete in-range date, and an empty range with an
empty report. -/
theorem date_range_half_open_witness :
    (mkDate 2024 1 2 ∈ enumDates (mkDate 2024 1 1) (mkDate 2024 1 4) ↔
      mkDate 2024 1 1 ≤ mkDate 2024 1 2 ∧ mkDate 2024 1 2 < mkDate 2024 1 4) ∧
    (tasksOf (mkDate 2024 1 5) (mkDate 2024 1 5) ["NIFTY"] = [] ∧
     (download_data fetchBoom st0 base0
        (mkDate 2024 1 5) (mkDate 2024 1 5) ["NIFTY"]).2 = []) :=
  ⟨(date_range_half_open (mkDate 2024 1 1) (mkDate 2024 1 4) ["NIFTY"]
      fetchBoom st0 base0).1 (mkDate 2024 1 2),
   (date_range_half_open (mkDate 2024 1 5) (mkDate 2024 1 5) ["NIFTY"]
      fetchBoom st0 base0).2.2 (Nat.le_refl _)⟩

/-- The trace of a non-weekend task: directory resolution first, then the
fetch with the lowercased code, then (on success) classification, then
persistence. -/
theorem download_single_trace (fetch : Fetch) (st : St) (base : FsPath)
    (date : Date) (instrument : String) (hw : ¬ weekday date ∈ [5, 6]) :
    ∃ rest,
      (download_single_date_instrument fetch st base date instrument).2.1
        = Event.resolveDirs :: Event.fetchData (lowerStr instrument) date :: rest ∧
      (rest = [] ∨ rest = [Event.classifyRows]
        ∨ rest = [Event.classifyRows, Event.persistWrite]) := by
  unfold download_single_date_instrument
  rw [if_neg hw]
  cases hf : fetch (lowerStr instrument) date with
  | error e =>
      refine ⟨[], ?_, Or.inl rfl⟩
      simp [hf]
  | ok raw_data =>
      cases hp : process_data raw_data instrument with
      | none =>
          refine ⟨[Event.classifyRows], ?_, Or.inr (Or.inl rfl)⟩
          simp [hf, hp]
      | some g =>
          refine ⟨[Event.classifyRows, Event.persistWrite], ?_,
            Or.inr (Or.inr rfl)⟩
          simp [hf, hp]

/-- The three planned directory paths are never the empty path. -/
theorem plannedDirs_ne_nil (base : FsPath) (date : Date) (instrument : String) :
    (plannedDirs base date instrument).fut ≠ [] ∧
    (plannedDirs base date instrument).spot ≠ [] ∧
    (plannedDirs base date instrument).options ≠ [] := by
  unfold plannedDirs
  refine ⟨?_, ?_, ?_⟩ <;> simp

/-- C1 counterexample: 2024-01-06 is a Saturday, yet `download_data`'s
task list for a range containing it does hold a task for it — the weekend
exclusion happens inside the worker, not at task creation. -/
theorem weekend_task_created_counterexample :
    weekday (mkDate 2024 1 6) = 5 ∧
    (mkDate 2024 1 6, "NIFTY")
      ∈ tasksOf (mkDate 2024 1 6) (mkDate 2024 1 7) ["NIFTY"] := by decide

/-- C1 (amended): a task pair is created even for a weekend date, but the
worker skips it with no effect — the state is returned untouched (nothing
persisted, no directory made), the stage trace is empty (no fetch is
attempted), no failure tuple is produced, and the batch report never
contains a failure carrying a weekend date. -/
theorem weekend_skipped_no_fetch_no_failure (fetch : Fetch) (st : St)
    (base : FsPath) (date : Date) (instrument : String)
    (h : weekday date = 5 ∨ weekday date = 6) :
    download_single_date_instrument fetch st base date instrument
      = (st, [], none) ∧
    ∀ (st2 : St) (base2 : FsPath) (s e : Nat) (instruments : List String)
      (i m : String),
      ¬ (date, i, m) ∈ (download_data fetch st2 base2 s e instruments).2 := by
  have hw : weekday date ∈ [5, 6] := by
    rcases h with h | h <;> simp [h]
  constructor
  · exact download_single_weekend fetch st base date instrument hw
  · intro st2 base2 s e instruments i m hmem
    rw [download_data_errors] at hmem
    rw [List.mem_filterMap] at hmem
    obtain ⟨t, _, ht⟩ := hmem
    obtain ⟨h1, _, h3⟩ := taskResult_shape fetch ht
    exact h3 (h1 ▸ hw)

/-- Witness for C1's amended theorem on the Saturday 2024-01-06. -/
theorem weekend_skipped_no_fetch_no_failure_witness :
    (weekday (mkDate 2024 1 6) = 5 ∨ weekday (mkDate 2024 1 6) = 6) ∧
    download_single_date_instrument fetchSample st0 base0
        (mkDate 2024 1 6) "NIFTY" = (st0, [], none) ∧
    ¬ (mkDate 2024 1 6, "NIFTY", "boom")
      ∈ (download_data fetchBoom st0 base0
           (mkDate 2024 1 6) (mkDate 2024 1 7) ["NIFTY"]).2 :=
  ⟨Or.inl (by decide),
   (weekend_skipped_no_fetch_no_failure fetchSample st0 base0
      (mkDate 2024 1 6) "NIFTY" (Or.inl (by decide))).1,
   (weekend_skipped_no_fetch_no_failure fetchBoom st0 base0
      (mkDate 2024 1 6) "NIFTY" (Or.inl (by decide))).2
     st0 base0 (mkDate 2024 1 6) (mkDate 2024 1 7) ["NIFTY"] "NIFTY" "boom"⟩

/-- C3: every exception at fetch or classification is caught as a
(date, instrument, message) tuple; a worker's result does not depend on
the state left by other tasks; the batch always completes, its report
being exactly the per-task failures. -/
theorem task_failures_isolated (fetch : Fetch) (st : St) (base : FsPath)
    (start_date end_date : Nat) (instruments : List String) :
    (download_data fetch st base start_date end_date instruments).2
      = (tasksOf start_date end_date instruments).filterMap
          (fun t => taskResult fetch t.1 t.2) ∧
    (∀ (st1 : St) (date : Date) (instrument : String),
        (download_single_date_instrument fetch st1 base date instrument).2.2
          = taskResult fetch date instrument) ∧
    (∀ (date : Date) (instrument e : String), ¬ weekday date ∈ [5, 6] →
        fetch (lowerStr instrument) date = Except.error e →
        taskResult fetch date instrument = some (date, instrument, e)) := by
  refine ⟨download_data_errors fetch st base start_date end_date instruments,
    fun st1 date instrument => download_single_snd fetch st1 base date instrument,
    fun date instrument e hw hf => ?_⟩
  unfold taskResult
  rw [if_neg hw, hf]

/-- Witness for C3: a failing fetch on Monday 2024-01-01. -/
theorem task_failures_isolated_witness :
    (download_data fetchBoom st0 base0 (mkDate 2024 1 1) (mkDate 2024 1 2)
        ["NIFTY"]).2
      = (tasksOf (mkDate 2024 1 1) (mkDate 2024 1 2) ["NIFTY"]).filterMap
          (fun t => taskResult fetchBoom t.1 t.2) ∧
    ¬ weekday (mkDate 2024 1 1) ∈ [5, 6] ∧
    taskResult fetchBoom (mkDate 2024 1 1) "NIFTY"
      = some (mkDate 2024 1 1, "NIFTY", "boom") :=
  ⟨(task_failures_isolated fetchBoom st0 base0 (mkDate 2024 1 1)
      (mkDate 2024 1 2) ["NIFTY"]).1,
   by decide,
   (task_failures_isolated fetchBoom st0 base0 (mkDate 2024 1 1)
      (mkDate 2024 1 2) ["NIFTY"]).2.2
     (mkDate 2024 1 1) "NIFTY" "boom" (by decide) rfl⟩

/-- C4 counterexample: on a successful Monday task the stage trace places
directory resolution before the fetch — not the claimed
fetch → classify → resolve → write order. -/
theorem pipeline_order_counterexample :
    (download_single_date_instrument fetchSample st0 base0
        (mkDate 2024 1 1) "NIFTY").2.1
      = [Event.resolveDirs, Event.fetchData "nifty" (mkDate 2024 1 1),
         Event.classifyRows, Event.persistWrite] ∧
    (download_single_date_instrument fetchSample st0 base0
        (mkDate 2024 1 1) "NIFTY").2.1
      ≠ [Event.fetchData "nifty" (mkDate 2024 1 1), Event.classifyRows,
         Event.resolveDirs, Event.persistWrite] := by decide

/-- C4 (amended): within each non-weekend task the stages run in the
order directory resolution/creation, then remote fetch, then
classification, then the file writes — each later stage present only when
the earlier ones succeeded. -/
theorem pipeline_stage_order (fetch : Fetch) (st : St) (base : FsPath)
    (date : Date) (instrument : String) (hw : ¬ weekday date ∈ [5, 6]) :
    ∃ rest,
      (download_single_date_instrument fetch st base date instrument).2.1
        = Event.resolveDirs :: Event.fetchData (lowerStr instrument) date :: rest ∧
      (rest = [] ∨ rest = [Event.classifyRows]
        ∨ rest = [Event.classifyRows, Event.persistWrite]) :=
  download_single_trace fetch st base date instrument hw

/-- Witness for C4's amended theorem on Monday 2024-01-01. -/
theorem pipeline_stage_order_witness :
    ¬ weekday (mkDate 2024 1 1) ∈ [5, 6] ∧
    ∃ rest,
      (download_single_date_instrument fetchSample st0 base0
          (mkDate 2024 1 1) "NIFTY").2.1
        = Event.resolveDirs
            :: Event.fetchData (lowerStr "NIFTY") (mkDate 2024 1 1) :: rest ∧
      (rest = [] ∨ rest = [Event.classifyRows]
        ∨ rest = [Event.classifyRows, Event.persistWrite]) :=
  ⟨by decide,
   pipeline_stage_order fetchSample st0 base0 (mkDate 2024 1 1) "NIFTY"
     (by decide)⟩

/-- C9: every fetch event of a task carries the lowercased instrument code
and the task's date, while classification filters symbols against the
original-case `instrument` and `instrument ++ "-I"`. -/
theorem fetch_lowercased_classify_original (fetch : Fetch) (st : St)
    (base : FsPath) (date : Date) (instrument : String) (data : Frame)
    (rows : List (List String)) (hw : ¬ weekday date ∈ [5, 6])
    (hsel : selectCols data base_columns = some ⟨base_columns, rows⟩) :
    Event.fetchData (lowerStr instrument) date
      ∈ (download_single_date_instrument fetch st base date instrument).2.1 ∧
    (∀ c d2, Event.fetchData c d2
        ∈ (download_single_date_instrument fetch st base date instrument).2.1 →
        c = lowerStr instrument ∧ d2 = date) ∧
    process_data data instrument = some
      ⟨⟨base_columns,
        rows.filter (fun r => r.getD 2 "" == instrument ++ "-I")⟩,
       ⟨spot_columns,
        (rows.filter (fun r => r.getD 2 "" == instrument)).map
          (fun r => [0, 1, 2, 3, 4, 5, 6].map (fun i => r.getD i ""))⟩,
       ⟨base_columns,
        rows.filter (fun r =>
          !(r.getD 2 "" == instrument)
            && !(r.getD 2 "" == instrument ++ "-I"))⟩⟩ := by
  obtain ⟨rest, htr, hrest⟩ :=
    download_single_trace fetch st base date instrument hw
  refine ⟨?_, ?_, process_data_spec data rows instrument hsel⟩
  · rw [htr]
    exact List.mem_cons_of_mem _ (List.mem_cons_self _ _)
  · intro c d2 hmem
    rw [htr] at hmem
    rcases List.mem_cons.mp hmem with h4 | hmem2
    · cases h4
    · rcases List.mem_cons.mp hmem2 with h4 | h4
      · injection h4 with hc hd
        exact ⟨hc, hd⟩
      · rcases hrest with rfl | rfl | rfl
        · exact absurd h4 (List.not_mem_nil _)
        · rcases List.mem_cons.mp h4 with h5 | h5
          · cases h5
          · exact absurd h5 (List.not_mem_nil _)
        · rcases List.mem_cons.mp h4 with h5 | h5
          · cases h5
          · rcases List.mem_cons.mp h5 with h6 | h6
            · cases h6
            · exact absurd h6 (List.not_mem_nil _)

/-- Witness for C9 on Monday 2024-01-01 with the concrete frame. -/
theorem fetch_lowercased_classify_original_witness :
    ¬ weekday (mkDate 2024 1 1) ∈ [5, 6] ∧
    selectCols sampleRaw base_columns = some ⟨base_columns, sampleRaw.rows⟩ ∧
    Event.fetchData (lowerStr "NIFTY") (mkDate 2024 1 1)
      ∈ (download_single_date_instrument fetchSample st0 base0
           (mkDate 2024 1 1) "NIFTY").2.1 :=
  ⟨by decide, by decide,
   (fetch_lowercased_classify_original fetchSample st0 base0
      (mkDate 2024 1 1) "NIFTY" sampleRaw sampleRaw.rows
      (by decide) (by decide)).1⟩

/-- C10: when the fetch of a non-weekend task raises, the task records its
failure and writes no file, but the three leg directories have already
been created: a failing task leaves the directory tree modified. -/
theorem failed_fetch_leaves_directories (fetch : Fetch) (st : St)
    (base : FsPath) (date : Date) (instrument : String) (e : String)
    (hw : ¬ weekday date ∈ [5, 6])
    (hf : fetch (lowerStr instrument) date = Except.error e) :
    (download_single_date_instrument fetch st base date instrument).2.2
      = some (date, instrument, e) ∧
    (download_single_date_instrument fetch st base date instrument).1.files
      = st.files ∧
    (plannedDirs base date instrument).fut
      ∈ (download_single_date_instrument fetch st base date instrument).1.fs ∧
    (plannedDirs base date instrument).spot
      ∈ (download_single_date_instrument fetch st base date instrument).1.fs ∧
    (plannedDirs base date instrument).options
      ∈ (download_single_date_instrument fetch st base date instrument).1.fs := by
  rw [download_single_fetch_error fetch st base date instrument e hw hf]
  refine ⟨rfl, rfl, ?_, ?_, ?_⟩
  · show _ ∈ (create_directory_structure st.fs base date instrument).1
    unfold create_directory_structure
    dsimp only
    exact mem_mkdirP_of_mem _ (mem_mkdirP_of_mem _
      (mem_mkdirP_self st.fs (plannedDirs_ne_nil base date instrument).1))
  · show _ ∈ (create_directory_structure st.fs base date instrument).1
    unfold create_directory_structure
    dsimp only
    exact mem_mkdirP_of_mem _
      (mem_mkdirP_self _ (plannedDirs_ne_nil base date instrument).2.1)
  · show _ ∈ (create_directory_structure st.fs base date instrument).1
    unfold create_directory_structure
    dsimp only
    exact mem_mkdirP_self _ (plannedDirs_ne_nil base date instrument).2.2

/-- Witness for C10: a failing fetch on Monday 2024-01-01. -/
theorem failed_fetch_leaves_directories_witness :
    ¬ weekday (mkDate 2024 1 1) ∈ [5, 6] ∧
    ((download_single_date_instrument fetchBoom st0 base0
        (mkDate 2024 1 1) "NIFTY").2.2
      = some (mkDate 2024 1 1, "NIFTY", "boom") ∧
     (download_single_date_instrument fetchBoom st0 base0
        (mkDate 2024 1 1) "NIFTY").1.files = st0.files ∧
     (plannedDirs base0 (mkDate 2024 1 1) "NIFTY").fut
      ∈ (download_single_date_instrument fetchBoom st0 base0
           (mkDate 2024 1 1) "NIFTY").1.fs ∧
     (plannedDirs base0 (mkDate 2024 1 1) "NIFTY").spot
      ∈ (download_single_date_instrument fetchBoom st0 base0
           (mkDate 2024 1 1) "NIFTY").1.fs ∧
     (plannedDirs base0 (mkDate 2024 1 1) "NIFTY").options
      ∈ (download_single_date_instrument fetchBoom st0 base0
           (mkDate 2024 1 1) "NIFTY").1.fs) :=
  ⟨by decide,
   failed_fetch_leaves_directories fetchBoom st0 base0
     (mkDate 2024 1 1) "NIFTY" "boom" (by decide) rfl⟩

end OptionsDownload
